import Mathlib

/-!
Verification of the CNN-visualizer repository's documented core against its
design specification.

The repository's algorithmic content lives in two places:

* `simulateTraining` in `src/App.tsx` (lines 126-157): a timer-driven
  synthetic training-metrics generator over React state
  (`trainingData : TrainingMetric[]`, `isTraining : boolean`) and a
  `setInterval` timer whose callback appends one `TrainingMetric` per tick.
* `analyzeClassification` and `generateFinalReport` in
  `src/geminiService.ts`: two thin wrappers around an external generative-AI
  service.

The embedding below renders the simulator as an explicit state machine
(React state updates applied in order, `setInterval`/`clearInterval` as a
list of live timers, `Math.random()` draws as explicit rational parameters
in `[0,1)`), and the gateway as functions over an oracle describing the
remote service's behaviour. JavaScript numbers are embedded as exact
rationals `ℚ`.
-/

/-- TrainingMetric from `src/types.ts`: one point of the simulated
training curve. -/
structure TrainingMetric where
  epoch : Nat
  loss : ℚ
  accuracy : ℚ
  val_loss : ℚ
  val_accuracy : ℚ
deriving Repr, DecidableEq

/-- Body of the `setTrainingData` functional updater inside the
`setInterval` callback of `simulateTraining` (`src/App.tsx` lines 133-148):
reads the previous point (or the seed values `0.45 / 0.42 / 1.2`), adds a
scaled `Math.random()` draw to each accuracy, subtracts one from the loss,
clamps, and builds the next point. `rA rV rL` are the three `Math.random()`
results, each in `[0,1)`. -/
def nextPoint (prev : List TrainingMetric) (currentEpoch : Nat)
    (rA rV rL : ℚ) : TrainingMetric :=
  let lastAcc := match prev.getLast? with
    | some m => m.accuracy
    | none => 0.45
  let lastValAcc := match prev.getLast? with
    | some m => m.val_accuracy
    | none => 0.42
  let lastLoss := match prev.getLast? with
    | some m => m.loss
    | none => 1.2
  let newAcc := min 0.98 (lastAcc + rA * 0.08)
  let newValAcc := min 0.95 (lastValAcc + rV * 0.06)
  let newLoss := max 0.1 (lastLoss - rL * 0.15)
  { epoch := currentEpoch
    accuracy := newAcc
    val_accuracy := newValAcc
    loss := newLoss
    val_loss := newLoss * 1.1 }

/-- A live interval timer registered by `setInterval` in `simulateTraining`:
`id` is the host's interval handle, `currentEpoch` the closure variable
`currentEpoch`, `totalEpochs` the captured constant. -/
structure IntervalTimer where
  id : Nat
  currentEpoch : Nat
  totalEpochs : Nat
deriving Repr, DecidableEq

/-- The state touched by the simulator: the two pieces of React state
(`trainingData`, `isTraining`) plus the host's set of live interval timers.
`nextId` is the next fresh interval handle. -/
structure SimState where
  trainingData : List TrainingMetric
  isTraining : Bool
  timers : List IntervalTimer
  nextId : Nat
deriving Repr, DecidableEq

/-- The component's initial state: empty series, not training, no timer. -/
def initialState : SimState :=
  { trainingData := [], isTraining := false, timers := [], nextId := 0 }

/-- The synchronous prefix of `simulateTraining` (`src/App.tsx` lines
126-157): sets `isTraining`, resets `trainingData` to `[]`, and registers a
fresh interval timer with `currentEpoch = 1`. The source hard-codes
`totalEpochs = 15`; it is a parameter here so that the spec's
for-all-epoch-count properties can be stated. Note the code does NOT clear
any previously registered interval. -/
def simulateTraining (totalEpochs : Nat) (s : SimState) : SimState :=
  { trainingData := []
    isTraining := true
    timers := s.timers ++ [⟨s.nextId, 1, totalEpochs⟩]
    nextId := s.nextId + 1 }

/-- The hard-coded epoch count of `simulateTraining` in the source. -/
def sourceTotalEpochs : Nat := 15

/-- One firing of the interval callback for the timer with handle `i`
(`src/App.tsx` lines 132-156): appends the next point, then — when
`currentEpoch >= totalEpochs` — clears the interval and resets
`isTraining`; otherwise the closure's `currentEpoch` is incremented. A
cleared (or never-registered) timer does not fire. -/
def tick (i : Nat) (r : ℚ × ℚ × ℚ) (s : SimState) : SimState :=
  match s.timers.find? (fun t => t.id == i) with
  | none => s
  | some t =>
    let fired := s.trainingData ++
      [nextPoint s.trainingData t.currentEpoch r.1 r.2.1 r.2.2]
    if t.totalEpochs ≤ t.currentEpoch then
      { s with trainingData := fired
               isTraining := false
               timers := s.timers.filter (fun u => u.id != i) }
    else
      { s with trainingData := fired
               timers := s.timers.map (fun u =>
                 if u.id == i then ⟨u.id, u.currentEpoch + 1, u.totalEpochs⟩
                 else u) }

/-- A sequence of firings of the timer with handle `i`, one per listed
triple of `Math.random()` draws. -/
def runTicks (i : Nat) (rs : List (ℚ × ℚ × ℚ)) (s : SimState) : SimState :=
  rs.foldl (fun s r => tick i r s) s

/-- Modelled from the spec: the repository's `simulateTraining` returns no
handle and `src/` contains no stop operation; §4.1 requires
"calling `stop(handle)` before completion halts emission immediately;
partially-emitted series remains available to the caller but is marked
not-running". Rendered as: clear the handle's interval timer, reset the
running flag, keep the series. -/
def stop (i : Nat) (s : SimState) : SimState :=
  { s with isTraining := false
           timers := s.timers.filter (fun t => t.id != i) }

/-! ### Basic facts about single firings -/

lemma mem_of_getLast?_eq_some {α} {l : List α} {a : α}
    (h : l.getLast? = some a) : a ∈ l := by
  obtain ⟨hne, rfl⟩ := List.mem_getLast?_eq_getLast (Option.mem_def.mpr h)
  exact List.getLast_mem hne

@[simp] lemma nextPoint_epoch (prev : List TrainingMetric) (e : Nat)
    (rA rV rL : ℚ) : (nextPoint prev e rA rV rL).epoch = e := rfl

/-- A tick does nothing once every timer is cleared. -/
lemma tick_no_timers (i : Nat) (r : ℚ × ℚ × ℚ) (s : SimState)
    (h : s.timers = []) : tick i r s = s := by
  simp [tick, h]

/-- A non-final firing of the unique live timer: one point is appended and
the closure's `currentEpoch` advances. -/
lemma tick_single_active (i e N : Nat) (r : ℚ × ℚ × ℚ)
    (d : List TrainingMetric) (b : Bool) (n : Nat) (he : e < N) :
    tick i r ⟨d, b, [⟨i, e, N⟩], n⟩
      = ⟨d ++ [nextPoint d e r.1 r.2.1 r.2.2], b, [⟨i, e + 1, N⟩], n⟩ := by
  simp [tick, List.find?, Nat.not_le.mpr he]

/-- The final firing of the unique live timer: the last point is appended,
the interval is cleared and `isTraining` is reset. -/
lemma tick_single_final (i e N : Nat) (r : ℚ × ℚ × ℚ)
    (d : List TrainingMetric) (b : Bool) (n : Nat) (he : N ≤ e) :
    tick i r ⟨d, b, [⟨i, e, N⟩], n⟩
      = ⟨d ++ [nextPoint d e r.1 r.2.1 r.2.2], false, [], n⟩ := by
  simp [tick, List.find?, he]

/-- Whenever some timer fires, the series grows by exactly the point
`nextPoint` computes at that timer's `currentEpoch`. -/
lemma tick_trainingData_of_find? {i : Nat} {r : ℚ × ℚ × ℚ} {s : SimState}
    {t : IntervalTimer} (h : s.timers.find? (fun u => u.id == i) = some t) :
    (tick i r s).trainingData
      = s.trainingData ++
        [nextPoint s.trainingData t.currentEpoch r.1 r.2.1 r.2.2] := by
  simp only [tick, h]
  split <;> rfl

/-! ### Straight-line runs of a single timer -/

/-- The series a straight-line run produces: fold of the emission body over
the draw list, starting from series `d` at epoch `e`. -/
def emitSeq (d : List TrainingMetric) (e : Nat) :
    List (ℚ × ℚ × ℚ) → List TrainingMetric
  | [] => d
  | r :: rs => emitSeq (d ++ [nextPoint d e r.1 r.2.1 r.2.2]) (e + 1) rs

lemma emitSeq_map_epoch :
    ∀ (rs : List (ℚ × ℚ × ℚ)) (d : List TrainingMetric) (e : Nat),
    (emitSeq d e rs).map TrainingMetric.epoch
      = d.map TrainingMetric.epoch ++ List.range' e rs.length
  | [], d, e => by simp [emitSeq]
  | r :: rs, d, e => by
    rw [emitSeq, emitSeq_map_epoch rs, List.length_cons, List.range'_succ,
      List.map_append]
    simp

lemma emitSeq_length :
    ∀ (rs : List (ℚ × ℚ × ℚ)) (d : List TrainingMetric) (e : Nat),
    (emitSeq d e rs).length = d.length + rs.length
  | [], d, e => by simp [emitSeq]
  | r :: rs, d, e => by
    rw [emitSeq, emitSeq_length rs]
    simp
    omega

lemma runTicks_nil (i : Nat) (s : SimState) : runTicks i [] s = s := rfl

lemma runTicks_cons (i : Nat) (r : ℚ × ℚ × ℚ) (rs : List (ℚ × ℚ × ℚ))
    (s : SimState) : runTicks i (r :: rs) s = runTicks i rs (tick i r s) := rfl

/-- An uncompleted straight-line run: fewer draws than remaining epochs
fire one point each and leave the timer live at the advanced epoch. -/
lemma runTicks_progress (i N : Nat) :
    ∀ (rs : List (ℚ × ℚ × ℚ)) (e : Nat) (d : List TrainingMetric)
      (b : Bool) (n : Nat), e + rs.length ≤ N →
    runTicks i rs ⟨d, b, [⟨i, e, N⟩], n⟩
      = ⟨emitSeq d e rs, b, [⟨i, e + rs.length, N⟩], n⟩
  | [], e, d, b, n, h => by simp [runTicks_nil, emitSeq]
  | r :: rs, e, d, b, n, h => by
    rw [runTicks_cons, tick_single_active i e N r d b n (by simp at h; omega),
      runTicks_progress i N rs (e + 1) _ b n (by simp at h ⊢; omega), emitSeq]
    simp
    omega

/-- A completed straight-line run: exactly the remaining number of draws
fire, the last firing clears the interval and resets `isTraining`. -/
lemma runTicks_complete (i N : Nat) :
    ∀ (rs : List (ℚ × ℚ × ℚ)) (e : Nat) (d : List TrainingMetric)
      (b : Bool) (n : Nat), e ≤ N → rs.length = N + 1 - e →
    runTicks i rs ⟨d, b, [⟨i, e, N⟩], n⟩ = ⟨emitSeq d e rs, false, [], n⟩
  | [], e, d, b, n, he, hlen => by simp at hlen; omega
  | [r], e, d, b, n, he, hlen => by
    have heN : N ≤ e := by simp at hlen; omega
    rw [runTicks_cons, tick_single_final i e N r d b n heN, runTicks_nil]
    rfl
  | r :: r' :: rs, e, d, b, n, he, hlen => by
    have he' : e < N := by simp at hlen; omega
    rw [runTicks_cons, tick_single_active i e N r d b n he',
      runTicks_complete i N (r' :: rs) (e + 1) _ b n (by omega)
        (by simp at hlen ⊢; omega)]
    rfl

/-! ### Invariants of emitted points -/

/-- The spec's per-point bounds (§8, second bullet): accuracy in
`[0.45, 0.98]`, validation accuracy in `[0.42, 0.95]`, loss at least
`0.10`, and validation loss exactly `1.1` times the loss. -/
def MetricBounded (m : TrainingMetric) : Prop :=
  0.45 ≤ m.accuracy ∧ m.accuracy ≤ 0.98 ∧
  0.42 ≤ m.val_accuracy ∧ m.val_accuracy ≤ 0.95 ∧
  0.1 ≤ m.loss ∧ m.val_loss = m.loss * 1.1

/-- Weak per-step monotonicity between two consecutive points: accuracies
do not decrease and the loss does not increase. -/
def StepRel (a b : TrainingMetric) : Prop :=
  a.accuracy ≤ b.accuracy ∧ a.val_accuracy ≤ b.val_accuracy ∧
  b.loss ≤ a.loss

/-- Every point of the series is in bounds and consecutive points are
weakly monotone. -/
def GoodSeries (d : List TrainingMetric) : Prop :=
  (∀ m ∈ d, MetricBounded m) ∧ List.Chain' StepRel d

lemma goodSeries_nil : GoodSeries [] := by
  constructor
  · intro m hm
    simp at hm
  · exact List.chain'_nil

/-- The emission body keeps every bound, for any non-negative draws. -/
lemma nextPoint_bounded {prev : List TrainingMetric} {e : Nat}
    {rA rV rL : ℚ} (h : ∀ m ∈ prev, MetricBounded m)
    (hA : 0 ≤ rA) (hV : 0 ≤ rV) (hL : 0 ≤ rL) :
    MetricBounded (nextPoint prev e rA rV rL) := by
  have hA8 : 0 ≤ rA * 0.08 := mul_nonneg hA (by norm_num)
  have hV6 : 0 ≤ rV * 0.06 := mul_nonneg hV (by norm_num)
  have base :
      (0.45 : ℚ) ≤ (match prev.getLast? with
        | some m => m.accuracy
        | none => 0.45) ∧
      (match prev.getLast? with
        | some m => m.accuracy
        | none => (0.45 : ℚ)) ≤ 0.98 ∧
      (0.42 : ℚ) ≤ (match prev.getLast? with
        | some m => m.val_accuracy
        | none => 0.42) ∧
      (match prev.getLast? with
        | some m => m.val_accuracy
        | none => (0.42 : ℚ)) ≤ 0.95 := by
    cases hl : prev.getLast? with
    | none => norm_num
    | some m =>
      have hm := h m (mem_of_getLast?_eq_some hl)
      exact ⟨hm.1, hm.2.1, hm.2.2.1, hm.2.2.2.1⟩
  refine ⟨?_, ?_, ?_, ?_, ?_, ?_⟩
  · exact le_min (by norm_num) (le_trans base.1 (le_add_of_nonneg_right hA8))
  · exact min_le_left _ _
  · exact le_min (by norm_num)
      (le_trans base.2.2.1 (le_add_of_nonneg_right hV6))
  · exact min_le_left _ _
  · exact le_max_left _ _
  · rfl

/-- The emission body never moves accuracy down or loss up relative to the
previous point, for any non-negative draws. -/
lemma nextPoint_mono {prev : List TrainingMetric} {e : Nat}
    {rA rV rL : ℚ} {m : TrainingMetric} (hl : prev.getLast? = some m)
    (hB : MetricBounded m) (hA : 0 ≤ rA) (hV : 0 ≤ rV) (hL : 0 ≤ rL) :
    StepRel m (nextPoint prev e rA rV rL) := by
  refine ⟨?_, ?_, ?_⟩
  · show m.accuracy ≤ min 0.98 _
    rw [hl]
    exact le_min hB.2.1
      (le_add_of_nonneg_right (mul_nonneg hA (by norm_num)))
  · show m.val_accuracy ≤ min 0.95 _
    rw [hl]
    exact le_min hB.2.2.2.1
      (le_add_of_nonneg_right (mul_nonneg hV (by norm_num)))
  · show max 0.1 _ ≤ m.loss
    rw [hl]
    exact max_le hB.2.2.2.2.1
      (sub_le_self _ (mul_nonneg hL (by norm_num)))

/-- Appending the emitted point preserves the series invariant. -/
lemma goodSeries_append {d : List TrainingMetric} {e : Nat} {rA rV rL : ℚ}
    (h : GoodSeries d) (hA : 0 ≤ rA) (hV : 0 ≤ rV) (hL : 0 ≤ rL) :
    GoodSeries (d ++ [nextPoint d e rA rV rL]) := by
  constructor
  · intro m hm
    rcases List.mem_append.mp hm with hm | hm
    · exact h.1 m hm
    · rcases List.mem_singleton.mp hm with rfl
      exact nextPoint_bounded h.1 hA hV hL
  · rw [List.chain'_append]
    refine ⟨h.2, List.chain'_singleton _, ?_⟩
    intro x hx y hy
    rcases List.head?_eq_some_iff.mp (Option.mem_def.mp hy) with ⟨l, hl⟩
    have hx' : d.getLast? = some x := Option.mem_def.mp hx
    have hy' : y = nextPoint d e rA rV rL := by
      have := congrArg List.head? hl
      simp at this
      exact this.symm
    rw [hy']
    exact nextPoint_mono hx' (h.1 x (mem_of_getLast?_eq_some hx')) hA hV hL

/-- Any single firing, of any live timer, preserves the series invariant. -/
lemma tick_goodSeries {i : Nat} {r : ℚ × ℚ × ℚ} {s : SimState}
    (h : GoodSeries s.trainingData)
    (hA : 0 ≤ r.1) (hV : 0 ≤ r.2.1) (hL : 0 ≤ r.2.2) :
    GoodSeries (tick i r s).trainingData := by
  cases hf : s.timers.find? (fun u => u.id == i) with
  | none =>
    unfold tick
    rw [hf]
    exact h
  | some t =>
    rw [tick_trainingData_of_find? hf]
    exact goodSeries_append h hA hV hL

/-- Any straight-line sequence of firings preserves the series invariant. -/
lemma runTicks_goodSeries {i : Nat} :
    ∀ {rs : List (ℚ × ℚ × ℚ)} {s : SimState}, GoodSeries s.trainingData →
    (∀ r ∈ rs, 0 ≤ r.1 ∧ 0 ≤ r.2.1 ∧ 0 ≤ r.2.2) →
    GoodSeries (runTicks i rs s).trainingData
  | [], s, h, _ => h
  | r :: rs, s, h, hrs => by
    rw [runTicks_cons]
    have hr := hrs r (List.mem_cons_self r rs)
    exact runTicks_goodSeries (tick_goodSeries h hr.1 hr.2.1 hr.2.2)
      (fun x hx => hrs x (List.mem_cons_of_mem r hx))

/-! ### Analysis gateway (`src/geminiService.ts`) -/

/-- A JSON value, as produced by the host's `JSON.parse`. -/
inductive Json where
  | null : Json
  | bool : Bool → Json
  | num : ℚ → Json
  | str : String → Json
  | arr : List Json → Json
  | obj : List (String × Json) → Json

/-- A fragment of the `@google/genai` response-schema language, enough to
express the schema declared at `src/geminiService.ts` lines 38-50. -/
inductive SchemaType where
  | object (properties : List (String × SchemaType))
      (required : List String)
  | string
  | number
  | array (items : SchemaType)

/-- The `responseSchema` value declared in `analyzeClassification`
(`src/geminiService.ts` lines 38-50). The source only SENDS this schema to
the service as a generation constraint; it never checks the reply against
it locally. -/
def classificationResponseSchema : SchemaType :=
  .object
    [("label", .string), ("confidence", .number),
     ("explanation", .string), ("features", .array .string)]
    ["label", "confidence", "explanation", "features"]

/-- Field lookup in a JSON object body. -/
def lookupField (fields : List (String × Json)) (k : String) :
    Option Json :=
  (fields.find? (fun p => p.1 == k)).map (fun p => p.2)

/-- Conformance of a JSON value to the declared classification response
shape: an object with `label : string`, `confidence : number`,
`explanation : string` and `features : array of string`, all required. -/
def conformsToResponseSchema : Json → Bool
  | .obj fields =>
    (match lookupField fields "label" with
      | some (.str _) => true
      | _ => false) &&
    (match lookupField fields "confidence" with
      | some (.num _) => true
      | _ => false) &&
    (match lookupField fields "explanation" with
      | some (.str _) => true
      | _ => false) &&
    (match lookupField fields "features" with
      | some (.arr xs) => xs.all (fun x =>
          match x with
          | .str _ => true
          | _ => false)
      | _ => false)
  | _ => false

/-- A failure of the underlying network/service call. -/
inductive TransportError where
  | credentialRejected
  | networkUnreachable
  | serviceError (code : Nat)
  | timeout
deriving Repr, DecidableEq

/-- Text payload returned by the service, abstracted by how the host's
`JSON.parse` treats it: either it parses to a JSON value, or it raises a
SyntaxError carrying the raw text. `JSON.parse` itself is a host
primitive, not repository code, so it is modelled by this split. -/
inductive ResponseText where
  | wellFormed (j : Json)
  | illFormed (raw : String)

/-- Host `JSON.parse` over the abstraction above. -/
def jsonParse : ResponseText → Except String Json
  | .wellFormed j => .ok j
  | .illFormed raw => .error raw

/-- Outcome of one `ai.models.generateContent` call: either the awaited
promise rejects with a transport/service failure, or it resolves with a
payload. -/
inductive GenOutcome (α : Type) where
  | failure (e : TransportError)
  | success (payload : α)

/-- An error thrown out of the gateway functions to their caller: either
the rethrown transport failure or the SyntaxError of `JSON.parse`. The
source has no wrapper types — the underlying error object itself
propagates — so the two constructors record exactly the underlying
cause. -/
inductive ThrownError where
  | transport (e : TransportError)
  | jsonParseFailure (raw : String)
deriving Repr, DecidableEq

/-- The request `analyzeClassification` sends: prompt text, the inline
image part (`imageData.split(',')[1]`), JSON response mime type and the
declared response schema, for model `gemini-3-flash-preview`. -/
structure GenRequest where
  model : String
  prompt : String
  imageBase64 : Option String
  responseJsonMime : Bool
  responseSchema : Option SchemaType

/-- The prompt template of `analyzeClassification`
(`src/geminiService.ts` lines 12-23). -/
def classificationPrompt (dataset architecture : String) : String :=
  "\n    You are acting as a Convolutional Neural Network (CNN) model that has just been trained on the \"" ++
  dataset ++
  "\" dataset.\n    The architecture used was: " ++
  architecture ++
  ".\n    \n    Analyze the provided image and return a JSON object describing:\n    1. The predicted label (be specific to the dataset).\n    2. Confidence level (0 to 1).\n    3. An explanation of what \"features\" the CNN layers likely detected (e.g., specific textures, shapes, or patterns characteristic of that class).\n    4. 3-4 key visual features detected by the hypothetical feature maps.\n\n    Provide the output strictly in JSON format.\n  "

/-- The prompt template of `generateFinalReport`
(`src/geminiService.ts` line 65). -/
def reportPrompt (summary : String) : String :=
  "Write a professional 5-7 line summary report on learning outcomes for a student who completed a CNN Image Classification project with these reflections: " ++
  summary ++
  ". Focus on concepts like feature extraction, model optimization, and data augmentation."

/-- analyzeClassification (`src/geminiService.ts` lines 6-59): builds the
prompt and request, makes ONE `generateContent` call (`svc req 0`; the
`Nat` argument numbers attempts, so that single-attempt behaviour is a
provable statement), then returns `JSON.parse(response.text)`. The `try`
block spans both the call and the parse; the `catch` logs and rethrows the
original error. No local schema validation is performed on the reply. -/
def analyzeClassification (imageData dataset architecture : String)
    (svc : GenRequest → Nat → GenOutcome ResponseText) :
    Except ThrownError Json :=
  let req : GenRequest :=
    { model := "gemini-3-flash-preview"
      prompt := classificationPrompt dataset architecture
      imageBase64 := (imageData.splitOn ",")[1]?
      responseJsonMime := true
      responseSchema := some classificationResponseSchema }
  match svc req 0 with
  | .failure e => .error (.transport e)
  | .success t =>
    match jsonParse t with
    | .ok j => .ok j
    | .error raw => .error (.jsonParseFailure raw)

/-- generateFinalReport (`src/geminiService.ts` lines 61-68): builds the
prompt, makes ONE `generateContent` call and returns `response.text`
unchanged; a rejected promise propagates to the caller as-is. No
validation of any kind is applied to the returned text. -/
def generateFinalReport (summary : String)
    (svc : String → Nat → GenOutcome String) : Except ThrownError String :=
  match svc (reportPrompt summary) 0 with
  | .failure e => .error (.transport e)
  | .success text => .ok text

/-- Spec §4.1 emission rule, written from the spec's words: given the
previous point (or the seed values `accuracy=0.45, val_accuracy=0.42,
loss=1.2` if none exists) and three uniform increments, produce
`accuracy' = min(0.98, accuracy + uA)`,
`val_accuracy' = min(0.95, val_accuracy + uV)`,
`loss' = max(0.10, loss - uL)`, `val_loss' = loss' * 1.1`. -/
def specEmission (prevOpt : Option TrainingMetric) (epoch : Nat)
    (uA uV uL : ℚ) : TrainingMetric :=
  let lastAcc := (prevOpt.map TrainingMetric.accuracy).getD 0.45
  let lastValAcc := (prevOpt.map TrainingMetric.val_accuracy).getD 0.42
  let lastLoss := (prevOpt.map TrainingMetric.loss).getD 1.2
  { epoch := epoch
    accuracy := min 0.98 (lastAcc + uA)
    val_accuracy := min 0.95 (lastValAcc + uV)
    loss := max 0.1 (lastLoss - uL)
    val_loss := max 0.1 (lastLoss - uL) * 1.1 }

/-- The code's emission body coincides with the spec's rule at increments
scaled from the `Math.random()` draws. -/
lemma nextPoint_eq_specEmission (prev : List TrainingMetric) (e : Nat)
    (rA rV rL : ℚ) :
    nextPoint prev e rA rV rL
      = specEmission prev.getLast? e (rA * 0.08) (rV * 0.06) (rL * 0.15) := by
  cases h : prev.getLast? <;> simp [nextPoint, specEmission, h]

lemma find?_append_of_forall_false {α} (p : α → Bool) :
    ∀ (l₁ l₂ : List α), (∀ x ∈ l₁, p x = false) →
    (l₁ ++ l₂).find? p = l₂.find? p
  | [], l₂, _ => rfl
  | a :: l₁, l₂, h => by
    rw [List.cons_append, List.find?_cons,
      h a (List.mem_cons_self a l₁),
      find?_append_of_forall_false p l₁ l₂
        (fun x hx => h x (List.mem_cons_of_mem a hx))]

/-! ### The claims -/

/-- C1: for every epoch count `N > 0`, starting the simulator and letting
its timer fire to completion (one firing per `Math.random()` draw triple,
`N` in all) produces exactly `N` points whose epoch values are
`1, 2, ..., N` strictly increasing by 1; the final firing clears the
internal timer and resets `isTraining`, and afterwards no firing of any
timer changes the state until `simulateTraining` is called again. -/
theorem simulator_run_to_completion (s : SimState) (N : Nat)
    (rs : List (ℚ × ℚ × ℚ)) (hT : s.timers = []) (hN : 0 < N)
    (hlen : rs.length = N) :
    ((runTicks s.nextId rs (simulateTraining N s)).trainingData.map
        TrainingMetric.epoch = List.range' 1 N)
    ∧ (runTicks s.nextId rs (simulateTraining N s)).trainingData.length = N
    ∧ (runTicks s.nextId rs (simulateTraining N s)).timers = []
    ∧ (runTicks s.nextId rs (simulateTraining N s)).isTraining = false
    ∧ ∀ (j : Nat) (r : ℚ × ℚ × ℚ),
        tick j r (runTicks s.nextId rs (simulateTraining N s))
          = runTicks s.nextId rs (simulateTraining N s) := by
  have hstart : simulateTraining N s
      = ⟨[], true, [⟨s.nextId, 1, N⟩], s.nextId + 1⟩ := by
    simp [simulateTraining, hT]
  have hrun := runTicks_complete s.nextId N rs 1 [] true (s.nextId + 1)
    hN (by omega)
  rw [hstart, hrun]
  refine ⟨?_, ?_, rfl, rfl, ?_⟩
  · rw [emitSeq_map_epoch]
    simp [hlen]
  · rw [emitSeq_length]
    simp [hlen]
  · intro j r
    exact tick_no_timers j r _ rfl

/-- C1 witness: a complete 3-epoch run from the initial state. -/
theorem simulator_run_to_completion_check :
    initialState.timers = [] ∧ 0 < 3 ∧
    ([((0:ℚ), (0:ℚ), (0:ℚ)), (1/2, 1/2, 1/2), (1/4, 1/3, 1/5)].length = 3) ∧
    (((runTicks initialState.nextId
        [((0:ℚ), (0:ℚ), (0:ℚ)), (1/2, 1/2, 1/2), (1/4, 1/3, 1/5)]
        (simulateTraining 3 initialState)).trainingData.map
          TrainingMetric.epoch = List.range' 1 3)
      ∧ (runTicks initialState.nextId
          [((0:ℚ), (0:ℚ), (0:ℚ)), (1/2, 1/2, 1/2), (1/4, 1/3, 1/5)]
          (simulateTraining 3 initialState)).trainingData.length = 3
      ∧ (runTicks initialState.nextId
          [((0:ℚ), (0:ℚ), (0:ℚ)), (1/2, 1/2, 1/2), (1/4, 1/3, 1/5)]
          (simulateTraining 3 initialState)).timers = []
      ∧ (runTicks initialState.nextId
          [((0:ℚ), (0:ℚ), (0:ℚ)), (1/2, 1/2, 1/2), (1/4, 1/3, 1/5)]
          (simulateTraining 3 initialState)).isTraining = false
      ∧ ∀ (j : Nat) (r : ℚ × ℚ × ℚ),
          tick j r (runTicks initialState.nextId
            [((0:ℚ), (0:ℚ), (0:ℚ)), (1/2, 1/2, 1/2), (1/4, 1/3, 1/5)]
            (simulateTraining 3 initialState))
            = runTicks initialState.nextId
              [((0:ℚ), (0:ℚ), (0:ℚ)), (1/2, 1/2, 1/2), (1/4, 1/3, 1/5)]
              (simulateTraining 3 initialState)) :=
  ⟨rfl, by norm_num, rfl,
    simulator_run_to_completion initialState 3 _ rfl (by norm_num) rfl⟩

/-- C2: each fired point is the spec's emission rule applied to the
previous point (or the seed values when none exists), with increments
drawn from `[0, 0.08)`, `[0, 0.06)` and `[0, 0.15)` — the three scaled
`Math.random()` draws, each taken uniformly from `[0, 1)`. -/
theorem emission_rule_refines_spec (i : Nat) (r : ℚ × ℚ × ℚ) (s : SimState)
    (t : IntervalTimer) (hf : s.timers.find? (fun u => u.id == i) = some t)
    (hA0 : 0 ≤ r.1) (hA1 : r.1 < 1) (hV0 : 0 ≤ r.2.1) (hV1 : r.2.1 < 1)
    (hL0 : 0 ≤ r.2.2) (hL1 : r.2.2 < 1) :
    ∃ uA uV uL : ℚ,
      0 ≤ uA ∧ uA < 0.08 ∧ 0 ≤ uV ∧ uV < 0.06 ∧ 0 ≤ uL ∧ uL < 0.15 ∧
      (tick i r s).trainingData
        = s.trainingData ++
          [specEmission s.trainingData.getLast? t.currentEpoch uA uV uL] := by
  refine ⟨r.1 * 0.08, r.2.1 * 0.06, r.2.2 * 0.15,
    mul_nonneg hA0 (by norm_num), ?_,
    mul_nonneg hV0 (by norm_num), ?_,
    mul_nonneg hL0 (by norm_num), ?_, ?_⟩
  · have := mul_lt_mul_of_pos_right hA1 (show (0:ℚ) < 0.08 by norm_num)
    simpa using this
  · have := mul_lt_mul_of_pos_right hV1 (show (0:ℚ) < 0.06 by norm_num)
    simpa using this
  · have := mul_lt_mul_of_pos_right hL1 (show (0:ℚ) < 0.15 by norm_num)
    simpa using this
  · rw [tick_trainingData_of_find? hf, nextPoint_eq_specEmission]

/-- C2 witness: the first firing of a freshly started run. -/
theorem emission_rule_refines_spec_check :
    ((simulateTraining 15 initialState).timers.find?
        (fun u => u.id == 0) = some ⟨0, 1, 15⟩) ∧
    (0 ≤ (1:ℚ)/2 ∧ (1:ℚ)/2 < 1) ∧
    ∃ uA uV uL : ℚ,
      0 ≤ uA ∧ uA < 0.08 ∧ 0 ≤ uV ∧ uV < 0.06 ∧ 0 ≤ uL ∧ uL < 0.15 ∧
      (tick 0 (1/2, 1/2, 1/2) (simulateTraining 15 initialState)).trainingData
        = (simulateTraining 15 initialState).trainingData ++
          [specEmission
            (simulateTraining 15 initialState).trainingData.getLast?
            (1 : Nat) uA uV uL] :=
  ⟨rfl, by norm_num,
    emission_rule_refines_spec 0 (1/2, 1/2, 1/2) (simulateTraining 15 initialState)
      ⟨0, 1, 15⟩ rfl (by norm_num) (by norm_num) (by norm_num) (by norm_num)
      (by norm_num) (by norm_num)⟩

/-- C3: with every draw in `[0, 1)`, every point of the series of a
(possibly unfinished) run satisfies `0.45 ≤ accuracy ≤ 0.98`,
`0.42 ≤ val_accuracy ≤ 0.95`, `loss ≥ 0.10` and `val_loss = loss * 1.1`
exactly. -/
theorem emitted_points_bounded (s : SimState) (N i : Nat)
    (rs : List (ℚ × ℚ × ℚ))
    (hrs : ∀ r ∈ rs, 0 ≤ r.1 ∧ r.1 < 1 ∧ 0 ≤ r.2.1 ∧ r.2.1 < 1 ∧
      0 ≤ r.2.2 ∧ r.2.2 < 1) :
    ∀ m ∈ (runTicks i rs (simulateTraining N s)).trainingData,
      0.45 ≤ m.accuracy ∧ m.accuracy ≤ 0.98 ∧
      0.42 ≤ m.val_accuracy ∧ m.val_accuracy ≤ 0.95 ∧
      0.1 ≤ m.loss ∧ m.val_loss = m.loss * 1.1 := by
  have hgood : GoodSeries (simulateTraining N s).trainingData :=
    goodSeries_nil
  exact (runTicks_goodSeries hgood (fun r hr =>
    ⟨(hrs r hr).1, (hrs r hr).2.2.1, (hrs r hr).2.2.2.2.1⟩)).1

/-- C3 witness: one firing with draw 1/2 everywhere. -/
theorem emitted_points_bounded_check :
    (∀ r ∈ [((1:ℚ)/2, (1:ℚ)/2, (1:ℚ)/2)], 0 ≤ r.1 ∧ r.1 < 1 ∧
      0 ≤ r.2.1 ∧ r.2.1 < 1 ∧ 0 ≤ r.2.2 ∧ r.2.2 < 1) ∧
    ∀ m ∈ (runTicks 0 [((1:ℚ)/2, (1:ℚ)/2, (1:ℚ)/2)]
        (simulateTraining 15 initialState)).trainingData,
      0.45 ≤ m.accuracy ∧ m.accuracy ≤ 0.98 ∧
      0.42 ≤ m.val_accuracy ∧ m.val_accuracy ≤ 0.95 ∧
      0.1 ≤ m.loss ∧ m.val_loss = m.loss * 1.1 :=
  ⟨by intro r hr; rw [List.mem_singleton] at hr; subst hr; norm_num,
    emitted_points_bounded initialState 15 0 _
      (by intro r hr; rw [List.mem_singleton] at hr; subst hr; norm_num)⟩

/-- C6: stopping after `k` firings of an `N`-epoch run (`k < N`) leaves
exactly the `k` recorded points available, marks the run not-running,
clears the timer, and no later firing of any timer changes the state. The
repository exposes no stop operation; `stop` is modelled from spec §4.1. -/
theorem stop_halts_emission (s : SimState) (N k : Nat)
    (rs : List (ℚ × ℚ × ℚ)) (hT : s.timers = []) (hk : rs.length = k)
    (hkN : k < N) :
    ((stop s.nextId (runTicks s.nextId rs
        (simulateTraining N s))).trainingData.length = k)
    ∧ (stop s.nextId (runTicks s.nextId rs
        (simulateTraining N s))).trainingData
        = (runTicks s.nextId rs (simulateTraining N s)).trainingData
    ∧ (stop s.nextId (runTicks s.nextId rs
        (simulateTraining N s))).isTraining = false
    ∧ (stop s.nextId (runTicks s.nextId rs
        (simulateTraining N s))).timers = []
    ∧ ∀ (j : Nat) (r : ℚ × ℚ × ℚ),
        tick j r (stop s.nextId (runTicks s.nextId rs
          (simulateTraining N s)))
          = stop s.nextId (runTicks s.nextId rs (simulateTraining N s)) := by
  have hstart : simulateTraining N s
      = ⟨[], true, [⟨s.nextId, 1, N⟩], s.nextId + 1⟩ := by
    simp [simulateTraining, hT]
  have hrun := runTicks_progress s.nextId N rs 1 [] true (s.nextId + 1)
    (by omega)
  rw [hstart, hrun]
  refine ⟨?_, rfl, rfl, ?_, ?_⟩
  · show (emitSeq [] 1 rs).length = k
    rw [emitSeq_length]
    simp [hk]
  · simp [stop]
  · intro j r
    refine tick_no_timers j r _ ?_
    simp [stop]

/-- C6 witness: stopping a 5-epoch run after 2 firings. -/
theorem stop_halts_emission_check :
    initialState.timers = [] ∧
    ([((0:ℚ), (0:ℚ), (0:ℚ)), (1/2, 1/2, 1/2)].length = 2) ∧ 2 < 5 ∧
    (((stop initialState.nextId (runTicks initialState.nextId
        [((0:ℚ), (0:ℚ), (0:ℚ)), (1/2, 1/2, 1/2)]
        (simulateTraining 5 initialState))).trainingData.length = 2)
      ∧ (stop initialState.nextId (runTicks initialState.nextId
          [((0:ℚ), (0:ℚ), (0:ℚ)), (1/2, 1/2, 1/2)]
          (simulateTraining 5 initialState))).trainingData
          = (runTicks initialState.nextId
              [((0:ℚ), (0:ℚ), (0:ℚ)), (1/2, 1/2, 1/2)]
              (simulateTraining 5 initialState)).trainingData
      ∧ (stop initialState.nextId (runTicks initialState.nextId
          [((0:ℚ), (0:ℚ), (0:ℚ)), (1/2, 1/2, 1/2)]
          (simulateTraining 5 initialState))).isTraining = false
      ∧ (stop initialState.nextId (runTicks initialState.nextId
          [((0:ℚ), (0:ℚ), (0:ℚ)), (1/2, 1/2, 1/2)]
          (simulateTraining 5 initialState))).timers = []
      ∧ ∀ (j : Nat) (r : ℚ × ℚ × ℚ),
          tick j r (stop initialState.nextId (runTicks initialState.nextId
            [((0:ℚ), (0:ℚ), (0:ℚ)), (1/2, 1/2, 1/2)]
            (simulateTraining 5 initialState)))
            = stop initialState.nextId (runTicks initialState.nextId
                [((0:ℚ), (0:ℚ), (0:ℚ)), (1/2, 1/2, 1/2)]
                (simulateTraining 5 initialState))) :=
  ⟨rfl, rfl, by norm_num,
    stop_halts_emission initialState 5 2 _ rfl rfl (by norm_num)⟩

/-- C7 counterexample: the claim "whenever a new run is started while a
previous run's timer is still active, the prior timer is cancelled before
the new run emits" is false in the code: after starting a 2-epoch run and
immediately starting another, BOTH timers are registered, and a firing of
the prior run's timer (handle 0) appends a point into the new run's
series. -/
theorem double_start_retains_prior_timer :
    (simulateTraining 2 initialState).timers ≠ []
    ∧ (simulateTraining 2 (simulateTraining 2 initialState)).timers
        = [⟨0, 1, 2⟩, ⟨1, 1, 2⟩]
    ∧ (tick 0 ((0:ℚ), (0:ℚ), (0:ℚ))
        (simulateTraining 2 (simulateTraining 2 initialState))).trainingData.length
        = 1 :=
  ⟨by decide, rfl, rfl⟩

/-- C7 (amended): starting a new run never cancels a previously registered
timer — the new timer is appended after any live ones, so a double start
leaves two concurrently live timers whose firings interleave into the
shared series; single-run exclusivity is enforced only by the caller (the
UI renders the start control only when `isTraining` is false and the
series is empty). -/
theorem start_does_not_cancel_prior_timer (s : SimState) (N : Nat) :
    (simulateTraining N s).timers = s.timers ++ [⟨s.nextId, 1, N⟩]
    ∧ (simulateTraining N s).trainingData = []
    ∧ (simulateTraining N s).isTraining = true :=
  ⟨rfl, rfl, rfl⟩

/-- C8: starting a run resets any prior series to empty before the first
new point is emitted, and after the first firing of the restarted run's
timer the series has length exactly 1 — regardless of how many points the
prior state held. The hypothesis says the fresh interval handle is not
already taken by a live timer, which the host guarantees. -/
theorem start_resets_series (s : SimState) (N : Nat) (r : ℚ × ℚ × ℚ)
    (hid : ∀ t ∈ s.timers, t.id ≠ s.nextId) :
    (simulateTraining N s).trainingData = []
    ∧ (tick s.nextId r (simulateTraining N s)).trainingData.length = 1 := by
  refine ⟨rfl, ?_⟩
  have hfind : (simulateTraining N s).timers.find?
      (fun u => u.id == s.nextId) = some ⟨s.nextId, 1, N⟩ := by
    have htimers : (simulateTraining N s).timers
        = s.timers ++ [(⟨s.nextId, 1, N⟩ : IntervalTimer)] := rfl
    rw [htimers, find?_append_of_forall_false _ s.timers _
      (fun t ht => by simp [hid t ht])]
    simp [List.find?]
  rw [tick_trainingData_of_find? hfind]
  simp [simulateTraining]

/-- C8 witness: restart after a completed 1-epoch run that recorded one
point; the first firing of the new run yields a series of length 1, not
2. -/
theorem start_resets_series_check :
    (∀ t ∈ (runTicks 0 [((1:ℚ)/2, (1:ℚ)/2, (1:ℚ)/2)]
        (simulateTraining 1 initialState)).timers,
      t.id ≠ (runTicks 0 [((1:ℚ)/2, (1:ℚ)/2, (1:ℚ)/2)]
        (simulateTraining 1 initialState)).nextId) ∧
    ((simulateTraining 4 (runTicks 0 [((1:ℚ)/2, (1:ℚ)/2, (1:ℚ)/2)]
        (simulateTraining 1 initialState))).trainingData = []
      ∧ (tick (runTicks 0 [((1:ℚ)/2, (1:ℚ)/2, (1:ℚ)/2)]
          (simulateTraining 1 initialState)).nextId ((1:ℚ)/4, (1:ℚ)/4, (1:ℚ)/4)
          (simulateTraining 4 (runTicks 0 [((1:ℚ)/2, (1:ℚ)/2, (1:ℚ)/2)]
            (simulateTraining 1 initialState)))).trainingData.length = 1) :=
  ⟨by intro t ht; simp [runTicks, tick, simulateTraining, initialState,
      List.find?] at ht,
    start_resets_series _ 4 _
      (by intro t ht; simp [runTicks, tick, simulateTraining, initialState,
        List.find?] at ht)⟩

/-- C10: within a single run, for every draw outcome in `[0, 1)`,
consecutive points are weakly monotone: accuracy and validation accuracy
never decrease and loss never increases. -/
theorem run_weakly_monotone (s : SimState) (N i : Nat)
    (rs : List (ℚ × ℚ × ℚ))
    (hrs : ∀ r ∈ rs, 0 ≤ r.1 ∧ r.1 < 1 ∧ 0 ≤ r.2.1 ∧ r.2.1 < 1 ∧
      0 ≤ r.2.2 ∧ r.2.2 < 1) :
    List.Chain' (fun a b => a.accuracy ≤ b.accuracy ∧
      a.val_accuracy ≤ b.val_accuracy ∧ b.loss ≤ a.loss)
      (runTicks i rs (simulateTraining N s)).trainingData := by
  have hgood : GoodSeries (simulateTraining N s).trainingData :=
    goodSeries_nil
  exact (runTicks_goodSeries hgood (fun r hr =>
    ⟨(hrs r hr).1, (hrs r hr).2.2.1, (hrs r hr).2.2.2.2.1⟩)).2

/-- C10 witness: two firings with distinct draws. -/
theorem run_weakly_monotone_check :
    (∀ r ∈ [((1:ℚ)/2, (1:ℚ)/2, (1:ℚ)/2), ((1:ℚ)/4, (1:ℚ)/3, (1:ℚ)/5)],
      0 ≤ r.1 ∧ r.1 < 1 ∧ 0 ≤ r.2.1 ∧ r.2.1 < 1 ∧
      0 ≤ r.2.2 ∧ r.2.2 < 1) ∧
    List.Chain' (fun a b => a.accuracy ≤ b.accuracy ∧
      a.val_accuracy ≤ b.val_accuracy ∧ b.loss ≤ a.loss)
      (runTicks 0 [((1:ℚ)/2, (1:ℚ)/2, (1:ℚ)/2), ((1:ℚ)/4, (1:ℚ)/3, (1:ℚ)/5)]
        (simulateTraining 15 initialState)).trainingData :=
  ⟨by intro r hr; simp only [List.mem_cons, List.mem_singleton] at hr
      rcases hr with rfl | rfl | h
      · norm_num
      · norm_num
      · simp at h,
    run_weakly_monotone initialState 15 0 _
      (by intro r hr; simp only [List.mem_cons, List.mem_singleton] at hr
          rcases hr with rfl | rfl | h
          · norm_num
          · norm_num
          · simp at h)⟩

/-- A syntactically valid service reply that violates the declared shape:
the required `features` field is missing. -/
def missingFeaturesJson : Json :=
  .obj [("label", .str "cat"), ("confidence", .num 0.87),
        ("explanation", .str "fur texture and pointed ears")]

/-- C4 counterexample: a parseable reply missing the required `features`
field does NOT make classify fail — the nonconforming value is returned as
a successful result, so the claim that every nonconforming response yields
a MalformedResponse error is false in the code. -/
theorem classify_accepts_missing_features :
    conformsToResponseSchema missingFeaturesJson = false
    ∧ analyzeClassification "data:image/jpeg;base64,AAAA" "Cats vs Dogs"
        "Conv2D -> MaxPooling2D -> Flatten -> Dense"
        (fun _ _ => .success (.wellFormed missingFeaturesJson))
        = .ok missingFeaturesJson :=
  ⟨rfl, rfl⟩

/-- C4 (amended): classify's only local response validation is
`JSON.parse`: a reply that parses is returned as-is — whether or not it
conforms to the declared schema, with no default substituted and no
error — and a reply that fails to parse is rethrown as the parse error,
which is distinct from every transport failure. -/
theorem classify_parse_only_validation
    (imageData dataset architecture : String)
    (svc : GenRequest → Nat → GenOutcome ResponseText) :
    (∀ j : Json, (∀ req, svc req 0 = .success (.wellFormed j)) →
      analyzeClassification imageData dataset architecture svc = .ok j)
    ∧ (∀ raw : String, (∀ req, svc req 0 = .success (.illFormed raw)) →
      analyzeClassification imageData dataset architecture svc
        = .error (.jsonParseFailure raw))
    ∧ ∀ (raw : String) (e : TransportError),
        (ThrownError.jsonParseFailure raw) ≠ .transport e := by
  refine ⟨?_, ?_, ?_⟩
  · intro j h
    simp only [analyzeClassification, h, jsonParse]
  · intro raw h
    simp only [analyzeClassification, h, jsonParse]
  · intro raw e h
    exact ThrownError.noConfusion h

/-- C4 witness: a conforming mocked reply is returned exactly. -/
theorem classify_parse_only_validation_check :
    analyzeClassification "data:image/jpeg;base64,AAAA" "fruits" "Conv2D"
      (fun _ _ => .success (.wellFormed (Json.str "ok")))
      = .ok (Json.str "ok") :=
  (classify_parse_only_validation "data:image/jpeg;base64,AAAA" "fruits"
    "Conv2D" _).1 (Json.str "ok") (fun _ => rfl)

/-- C5: when the single underlying `generateContent` call fails, classify
and generateReport both fail with the propagated transport error carrying
the original cause — no partial result is produced — and each result
depends only on the outcome of attempt 0, so exactly one attempt is
consulted and no retry can occur. -/
theorem gateway_failure_propagation
    (imageData dataset architecture summary : String)
    (csvc : GenRequest → Nat → GenOutcome ResponseText)
    (rsvc : String → Nat → GenOutcome String) (e eR : TransportError)
    (hc : ∀ req, csvc req 0 = .failure e)
    (hr : ∀ p, rsvc p 0 = .failure eR) :
    analyzeClassification imageData dataset architecture csvc
      = .error (.transport e)
    ∧ generateFinalReport summary rsvc = .error (.transport eR)
    ∧ (∀ csvc2 : GenRequest → Nat → GenOutcome ResponseText,
        (∀ req, csvc2 req 0 = csvc req 0) →
        analyzeClassification imageData dataset architecture csvc2
          = analyzeClassification imageData dataset architecture csvc)
    ∧ ∀ rsvc2 : String → Nat → GenOutcome String,
        (∀ p, rsvc2 p 0 = rsvc p 0) →
        generateFinalReport summary rsvc2
          = generateFinalReport summary rsvc := by
  refine ⟨?_, ?_, ?_, ?_⟩
  · simp only [analyzeClassification, hc]
  · simp only [generateFinalReport, hr]
  · intro csvc2 h2
    simp only [analyzeClassification, h2]
  · intro rsvc2 h2
    simp only [generateFinalReport, h2]

/-- C5 witness: a timeout on classify and an unreachable network on
generateReport both surface as the propagated transport failure. -/
theorem gateway_failure_propagation_check :
    analyzeClassification "data:image/jpeg;base64,AAAA" "cats-vs-dogs"
      "Conv2D" (fun _ _ => .failure .timeout)
      = .error (.transport .timeout)
    ∧ generateFinalReport "my notes"
      (fun _ _ => .failure .networkUnreachable)
      = .error (.transport .networkUnreachable) :=
  ⟨(gateway_failure_propagation "data:image/jpeg;base64,AAAA" "cats-vs-dogs"
      "Conv2D" "my notes" (fun _ _ => .failure .timeout)
      (fun _ _ => .failure .networkUnreachable) .timeout .networkUnreachable
      (fun _ => rfl) (fun _ => rfl)).1,
    (gateway_failure_propagation "data:image/jpeg;base64,AAAA" "cats-vs-dogs"
      "Conv2D" "my notes" (fun _ _ => .failure .timeout)
      (fun _ _ => .failure .networkUnreachable) .timeout .networkUnreachable
      (fun _ => rfl) (fun _ => rfl)).2.1⟩

/-- C9 counterexample: generateReport performs NO validation of the
returned text — the claim that a semantically empty response is not
returned as a successful result is false: the empty string comes back as
a success. -/
theorem report_returns_empty_success :
    generateFinalReport "I learned about dropout and augmentation"
      (fun _ _ => .success "") = .ok "" := rfl

/-- C9 (amended): generateReport returns the service's text response
unmodified, with no transformation, parsing, or validation of any kind —
in particular an empty reply is also returned as a successful result. -/
theorem report_returns_text_unmodified (summary text : String)
    (svc : String → Nat → GenOutcome String)
    (h : ∀ p, svc p 0 = .success text) :
    generateFinalReport summary svc = .ok text := by
  simp only [generateFinalReport, h]

/-- C9 witness: the spec's example reflection text with a mocked non-empty
reply, returned exactly. -/
theorem report_returns_text_unmodified_check :
    (∀ p : String, (fun (_ : String) (_ : Nat) =>
        GenOutcome.success "The student demonstrated mastery of CNNs.") p 0
      = GenOutcome.success "The student demonstrated mastery of CNNs.") ∧
    generateFinalReport "I learned about dropout and augmentation"
      (fun _ _ => .success "The student demonstrated mastery of CNNs.")
      = .ok "The student demonstrated mastery of CNNs." :=
  ⟨fun _ => rfl,
    report_returns_text_unmodified "I learned about dropout and augmentation"
      "The student demonstrated mastery of CNNs." _ (fun _ => rfl)⟩

example :
    (simulateTraining 15 initialState).timers = [⟨0, 1, 15⟩] := rfl

example :
    (tick 0 (1/2, 1/2, 1/2) (simulateTraining 15 initialState)).trainingData
      = [{ epoch := 1, loss := 1.125, accuracy := 0.49
           val_loss := 1.2375, val_accuracy := 0.45 }] := by
  simp only [tick, simulateTraining, initialState, nextPoint]
  norm_num [min_def, max_def]
